import Mathlib

/-!
Shallow embedding of the gb-sc-homework repository (main.go): the
shopspring-decimal-backed amount conversions `ToDecimal` and `ToWei`, the
confirmation-polling loop `WaitForBlockCompletion` with its helper
`checkTransactionReceipt`, the account construction `getAccount`, and the
orchestrator's balance-display step, together with theorems settling the
specification's claims about them.
-/

namespace GbSc

/-- A shopspring `decimal.Decimal` is a `big.Int` coefficient together with an
`int32` exponent, denoting `coefficient * 10 ^ exponent`.  Its `String`
method prints the denoted value in plain decimal notation with trailing
zeros trimmed, so only the denoted rational value of a decimal is observable
in this program; we model a `Decimal` by that exact rational value. -/
structure Decimal where
  val : ℚ
deriving DecidableEq

/-- Go: `decimal.DivisionPrecision = 16`, the number of fractional digits kept
by shopspring `Decimal.Div` when the quotient does not divide exactly. -/
def DivisionPrecision : Nat := 16

/-- Rounding half away from zero to an integer, the rounding mode shopspring
`DivRound` applies to the scaled quotient. -/
def roundHalfAway (q : ℚ) : ℤ :=
  if 0 ≤ q then ⌊q + 1 / 2⌋ else ⌈q - 1 / 2⌉

/-- Go: `d.Mul(d2)` — shopspring decimal multiplication is exact. -/
def Decimal.mulD (a b : Decimal) : Decimal := ⟨a.val * b.val⟩

/-- Go: `d.DivRound(d2, precision)` — the quotient rounded half away from
zero to `precision` fractional digits. -/
def Decimal.divRound (a b : Decimal) (precision : Nat) : Decimal :=
  ⟨(roundHalfAway (a.val / b.val * 10 ^ precision) : ℚ) / 10 ^ precision⟩

/-- Go: `d.Div(d2)`, which shopspring defines as
`d.DivRound(d2, DivisionPrecision)`. -/
def Decimal.divD (a b : Decimal) : Decimal :=
  a.divRound b DivisionPrecision

/-- Go: `decimal.NewFromFloat(float64(10)).Pow(decimal.NewFromFloat(float64(decimals)))`
as both conversion functions compute `mul`.  Both floats are exactly
representable, and shopspring `Pow` at a nonnegative integer exponent is the
exact integer power (repeated exact squaring and multiplication). -/
def powOfTen (decimals : Nat) : Decimal := ⟨10 ^ decimals⟩

/-- The value of the longest leading run of decimal digits of `cs` appended
to accumulator `acc`; scanning stops at the first non-digit, as the
`math/big` scanner does in base 10. -/
def scanDigits : List Char → Nat → Nat
  | [], acc => acc
  | c :: cs, acc =>
    if c.isDigit then scanDigits cs (10 * acc + (c.toNat - ('0').toNat))
    else acc

/-- Go: the effect of `z.SetString(s, 10)` on the receiver `z` when the
Boolean result is discarded.  `(*big.Int).scan` consumes an optional sign and
then the longest run of decimal digits, storing that value in the receiver
before `setFromScanner` checks for end of input; a trailing non-digit makes
`SetString` report failure while the receiver keeps the scanned value (`0`
when no digits were consumed).  `main.go` ignores the failure flag in both
`ToDecimal` and `ToWei`, so this receiver value is what the program uses. -/
def bigIntSetStringValue (s : String) : ℤ :=
  match s.data with
  | [] => 0
  | c :: cs =>
    if c = ('-') then -(scanDigits cs 0 : ℤ)
    else if c = ('+') then (scanDigits cs 0 : ℤ)
    else (scanDigits (c :: cs) 0 : ℤ)

/-- Strict parse of a nonempty all-digit string, the success case of the
`big.Int.SetString` call shopspring makes on the digit string it assembles
(shopspring does check the success flag). -/
def parseDigitsStrict (cs : List Char) : Option Nat :=
  if cs ≠ [] ∧ cs.all Char.isDigit then some (scanDigits cs 0) else none

/-- Split at the first decimal point, keeping the fractional digits
separate; shopspring `NewFromString` rejects inputs with more than one
decimal point. -/
def splitOnDot (cs : List Char) : Option (List Char × Option (List Char)) :=
  let intPart := cs.takeWhile (· ≠ ('.'))
  match cs.dropWhile (· ≠ ('.')) with
  | [] => some (intPart, none)
  | _ :: frac =>
    if frac.contains ('.') then none else some (intPart, some frac)

/-- The representation shopspring `NewFromString` builds: a sign, the
coefficient assembled by concatenating the digits on either side of the
decimal point, and the number of fractional digits (the negated exponent).
Plain decimal notation only (optional sign, digits, optional decimal point
and fractional digits) — the only forms this program produces or consumes;
exponent notation is not modelled.  `none` is a parse error. -/
def newFromStringRep (s : String) : Option (Bool × Nat × Nat) :=
  let signAndRest : Bool × List Char :=
    match s.data with
    | [] => (false, [])
    | c :: cs =>
      if c = ('-') then (true, cs)
      else if c = ('+') then (false, cs)
      else (false, c :: cs)
  match splitOnDot signAndRest.2 with
  | none => none
  | some (intPart, none) =>
    match parseDigitsStrict intPart with
    | none => none
    | some n => some (signAndRest.1, n, 0)
  | some (intPart, some frac) =>
    match parseDigitsStrict (intPart ++ frac) with
    | none => none
    | some n => some (signAndRest.1, n, frac.length)

/-- The decimal value denoted by a parsed sign, coefficient and fractional
digit count: `±coefficient * 10 ^ -(fractional digits)`. -/
def repValue (r : Bool × Nat × Nat) : Decimal :=
  ⟨(if r.1 then -(r.2.1 : ℚ) else (r.2.1 : ℚ)) / 10 ^ r.2.2⟩

/-- Go: `decimal.NewFromString(s)` — the parsed representation read as a
decimal value; any parse failure yields an error (`none`) together with the
zero decimal. -/
def newFromString (s : String) : Option Decimal :=
  (newFromStringRep s).map repValue

/-- The composite effect in `ToWei` of `result.String()` followed by
`wei.SetString(result.String(), 10)` with the success flag ignored:
`String` prints the exact value in plain decimal notation (never exponent
notation), and the `SetString` scan keeps exactly the leading
sign-and-digits part of that text (see `bigIntSetStringValue`), which is the
integer part of the value — truncation toward zero. -/
def truncTowardZero (q : ℚ) : ℤ :=
  if 0 ≤ q then ⌊q⌋ else ⌈q⌉

/-- The dynamic type of `ToDecimal`'s `interface{}` argument.  The Go type
switch handles `string` and `*big.Int`; a nil `*big.Int` (what the generated
`BalanceOf` binding returns alongside an error) still matches the `*big.Int`
case; any other dynamic type (for example `int64` or `float64`) falls
through the switch with `value` left at the fresh zero `big.Int`. -/
inductive IValue where
  | str (s : String)
  | bigInt (n : ℤ)
  | nilBigInt
  | int64 (n : ℤ)
  | float64 (x : ℚ)

/-- Go: `ToDecimal(ivalue, decimals)` from main.go.  For a string, `value` is
whatever the ignored-failure `SetString` scan left in the receiver; for a
non-nil `*big.Int`, `value.String()` is the exact integer text and
`decimal.NewFromString` reproduces the integer; for a nil `*big.Int`,
`value.String()` is the text `<nil>`, `NewFromString` fails, and the
discarded error leaves `num` at the zero decimal; for any other dynamic type
`value` stays at the fresh zero `big.Int`.  The result is `num.Div(mul)`
with `mul = 10 ^ decimals` (`decimals` comes from the contract's `uint8`,
hence is nonnegative), i.e. the exact quotient rounded half away from zero
to `DivisionPrecision = 16` fractional digits. -/
def ToDecimal (ivalue : IValue) (decimals : Nat) : Decimal :=
  let num : Decimal :=
    match ivalue with
    | .str v => ⟨(bigIntSetStringValue v : ℚ)⟩
    | .bigInt n => ⟨(n : ℚ)⟩
    | .nilBigInt => ⟨0⟩
    | .int64 _ => ⟨0⟩
    | .float64 _ => ⟨0⟩
  let mul := powOfTen decimals
  num.divD mul

/-- The dynamic type of `ToWei`'s `interface{}` argument, covering the cases
of the Go type switch this program can reach.  A `float64` is modelled by
the decimal value `decimal.NewFromFloat` extracts from it (the shortest
decimal representation that round-trips to the float — for the literals this
program passes, such as `100.0`, the literal itself); the `int64` case goes
through `float64(v)`, exact for the magnitudes considered here; the
`*decimal.Decimal` case dereferences and is identified with the
`decimal.Decimal` case. -/
inductive IAmount where
  | str (s : String)
  | float64 (x : ℚ)
  | int64 (n : ℤ)
  | dec (d : Decimal)

/-- Go: `ToWei(iamount, decimals)` from main.go.  The string case discards
the `NewFromString` error, keeping the zero decimal on failure; the amount
is multiplied exactly by `10 ^ decimals`, and the final
`wei.SetString(result.String(), 10)` with its ignored failure flag leaves
the integer part of the product in `wei` (see `truncTowardZero`). -/
def ToWei (iamount : IAmount) (decimals : Nat) : ℤ :=
  let amount : Decimal :=
    match iamount with
    | .str v => (newFromString v).getD ⟨0⟩
    | .float64 x => ⟨x⟩
    | .int64 n => ⟨(n : ℚ)⟩
    | .dec d => d
  let mul := powOfTen decimals
  let result := amount.mulD mul
  truncTowardZero result.val

/-- Go: `checkTransactionReceipt(txHash, client)` — `client.TransactionReceipt`
either fails (`none`, covering both an absent receipt, which go-ethereum
reports as the not-found error, and any other fetch error), in which case
the function returns `-1`, or yields a receipt whose `Status` field (a
`uint64`, `0` for a failed and `1` for a successful transaction) is
returned as an `int`. -/
def checkTransactionReceipt (receipt : Option Nat) : ℤ :=
  match receipt with
  | none => -1
  | some status => (status : ℤ)

/-- One delivery consumed by the `select` in `WaitForBlockCompletion`:
either the subscription's error channel fires, or a new block header
arrives, in which case `receipt` is what `client.TransactionReceipt`
returns for the awaited hash at that moment. -/
inductive WaitEvent where
  | subErr
  | header (receipt : Option Nat)
deriving DecidableEq

/-- The observable outcome of running `WaitForBlockCompletion` against a
finite event trace: the returned code (`none` when the trace ends with the
loop still waiting; `-1` for a subscription error, `0` for a failed
transaction, `1` for a successful one), the number of receipt queries
performed, and the number of `sub.Unsubscribe()` calls issued. -/
structure WaitOutcome where
  result : Option ℤ
  polls : Nat
  unsubs : Nat
deriving DecidableEq

/-- The `for { select { ... } }` loop of `WaitForBlockCompletion`,
instrumented with the receipt-query and unsubscribe counters.  A
subscription error returns `-1` immediately (without unsubscribing); a
header notification queries the receipt exactly once: status `0`
unsubscribes and returns `0`, status `1` unsubscribes and returns `1`, and
any other status (in particular the `-1` of a failed receipt fetch)
continues waiting. -/
def waitLoop : List WaitEvent → Nat → Nat → WaitOutcome
  | [], polls, unsubs => ⟨none, polls, unsubs⟩
  | .subErr :: _, polls, unsubs => ⟨some (-1), polls, unsubs⟩
  | .header receipt :: rest, polls, unsubs =>
    let transactionStatus := checkTransactionReceipt receipt
    if transactionStatus = 0 then ⟨some 0, polls + 1, unsubs + 1⟩
    else if transactionStatus = 1 then ⟨some 1, polls + 1, unsubs + 1⟩
    else waitLoop rest (polls + 1) unsubs

/-- Go: `WaitForBlockCompletion(client, hashToRead)` run against a finite
trace of channel deliveries, on the successful-subscription path (a failed
`client.SubscribeNewHead` exits the process via `log.Fatal`). -/
def WaitForBlockCompletion (events : List WaitEvent) : WaitOutcome :=
  waitLoop events 0 0

/-- An secp256k1 private key as `crypto.HexToECDSA` produces; only the data
flow matters to the claims, not the cryptographic content. -/
structure ECDSAPrivateKey where
  d : Nat

/-- The public key derived from a private key. -/
structure ECDSAPublicKey where
  x : Nat
  y : Nat

/-- A 20-byte account address (`common.Address`). -/
structure EthAddress where
  val : Nat

/-- go-ethereum `bind.TransactOpts`, restricted to the fields this program
sets or the claims observe.  `signerChainID` models the chain id captured
by the signing closure that `bind.NewKeyedTransactorWithChainID` installs;
`Nonce = none` is the nil nonce, left to be resolved by the chain client at
submission time. -/
structure TransactOpts where
  From : EthAddress
  signerChainID : ℤ
  Nonce : Option ℤ
  Value : ℤ
  GasLimit : Nat
  GasPrice : ℤ

/-- go-ethereum: `bind.NewKeyedTransactorWithChainID(key, chainID)` returns
transact options whose `From` is the key's address and whose signer is
bound to `chainID`, all other fields left at their zero values. -/
def newKeyedTransactorWithChainID (address : EthAddress) (chainID : ℤ) : TransactOpts :=
  ⟨address, chainID, none, 0, 0, 0⟩

/-- The `Account` struct of main.go. -/
structure Account where
  PrivateKey : ECDSAPrivateKey
  PublicKey : ECDSAPublicKey
  Address : EthAddress
  Auth : TransactOpts

/-- The external collaborators `getAccount` consults: `crypto.HexToECDSA`
(which fails on malformed hex or an invalid curve point), the public-key
derivation `privateKey.Public()`, and `crypto.PubkeyToAddress`. -/
structure CryptoEnv where
  hexToECDSA : String → Option ECDSAPrivateKey
  publicKeyOf : ECDSAPrivateKey → ECDSAPublicKey
  pubkeyToAddress : ECDSAPublicKey → EthAddress

/-- Go: `getAccount(privateKeyStr, client)` from main.go.  `chainID` and
`gasPrice` are the results of the `client.NetworkID` and
`client.SuggestGasPrice` calls; every error path calls `log.Fatal`
(modelled as `none`).  After building the keyed transactor the function
overwrites `Nonce` with nil, `Value` with the zero wei amount, `GasLimit`
with `300000` units and `GasPrice` with the suggested gas price. -/
def getAccount (env : CryptoEnv) (privateKeyStr : String) (chainID gasPrice : ℤ) :
    Option Account :=
  match env.hexToECDSA privateKeyStr with
  | none => none
  | some privateKey =>
    let publicKeyECDSA := env.publicKeyOf privateKey
    let address := env.pubkeyToAddress publicKeyECDSA
    let auth0 := newKeyedTransactorWithChainID address chainID
    let auth : TransactOpts :=
      { auth0 with Nonce := none, Value := 0, GasLimit := 300000, GasPrice := gasPrice }
    some ⟨privateKey, publicKeyECDSA, address, auth⟩

/-- Go, main.go balance-display steps: the orchestrator runs
`balance, _ := tokenInstance.BalanceOf(&bind.CallOpts{}, addr)` and prints
`ToDecimal(balance, int(decimals))`.  The generated `BalanceOf` binding
returns `*new(*big.Int)` — the nil pointer — alongside any call error, and
the orchestrator discards the error with the blank identifier, so a failed
read reaches `ToDecimal` as a nil `*big.Int` and the run continues. -/
def displayedBalance (balanceOfResult : Except Unit ℤ) (decimals : Nat) : Decimal :=
  match balanceOfResult with
  | .ok b => ToDecimal (.bigInt b) decimals
  | .error _ => ToDecimal .nilBigInt decimals

/-- A concrete stand-in for the cryptographic collaborators, used to
instantiate theorems about `getAccount` on a closed input. -/
def trivialCryptoEnv : CryptoEnv :=
  ⟨fun _ => some ⟨0⟩, fun _ => ⟨0, 0⟩, fun _ => ⟨0⟩⟩

/-- The account `getAccount` builds from `trivialCryptoEnv` with chain id 97
and suggested gas price 5. -/
def sampleAccount : Account :=
  ⟨⟨0⟩, ⟨0, 0⟩, ⟨0⟩, ⟨⟨0⟩, 97, none, 0, 300000, 5⟩⟩

/-! Supporting lemmas. -/

theorem roundHalfAway_intCast (k : ℤ) : roundHalfAway (k : ℚ) = k := by
  unfold roundHalfAway
  split
  · rw [show ((k : ℚ) + 1 / 2) = 1 / 2 + (k : ℚ) from by ring, Int.floor_add_int]
    norm_num
  · rw [show ((k : ℚ) - 1 / 2) = -(1 / 2) + (k : ℚ) from by ring, Int.ceil_add_int]
    norm_num

theorem truncTowardZero_intCast (k : ℤ) : truncTowardZero (k : ℚ) = k := by
  unfold truncTowardZero
  split <;> simp

theorem divRound_eq_intCast (a b : Decimal) (p : Nat) (k : ℤ)
    (h : a.val / b.val * 10 ^ p = (k : ℚ)) :
    a.divRound b p = ⟨(k : ℚ) / 10 ^ p⟩ := by
  simp only [Decimal.divRound, h, roundHalfAway_intCast]

theorem divRound_powOfTen_int (a : ℤ) (d p : Nat) (hdp : d ≤ p) :
    Decimal.divRound ⟨(a : ℚ)⟩ (powOfTen d) p = ⟨(a : ℚ) / 10 ^ d⟩ := by
  obtain ⟨e, rfl⟩ : ∃ e, p = d + e := ⟨p - d, by omega⟩
  have h10 : (10 : ℚ) ^ d ≠ 0 := by positivity
  have key : (a : ℚ) / (powOfTen d).val * 10 ^ (d + e) = ((a * 10 ^ e : ℤ) : ℚ) := by
    simp only [powOfTen]
    push_cast
    field_simp
    ring
  rw [divRound_eq_intCast _ _ _ _ key]
  have : ((a * 10 ^ e : ℤ) : ℚ) / 10 ^ (d + e) = (a : ℚ) / 10 ^ d := by
    push_cast
    rw [pow_add]
    field_simp
    ring
  rw [this]

theorem ToDecimal_bigInt_exact (a : ℤ) (d : Nat) (hd : d ≤ DivisionPrecision) :
    ToDecimal (.bigInt a) d = ⟨(a : ℚ) / 10 ^ d⟩ := by
  simp only [ToDecimal, Decimal.divD]
  exact divRound_powOfTen_int a d DivisionPrecision hd

theorem divD_zero_num (b : Decimal) : Decimal.divD ⟨0⟩ b = ⟨0⟩ := by
  simp only [Decimal.divD, Decimal.divRound]
  norm_num [roundHalfAway]

theorem ToWei_dec_val (q : ℚ) (d : Nat) :
    ToWei (.dec ⟨q⟩) d = truncTowardZero (q * 10 ^ d) := rfl

theorem newFromString_of_rep (s : String) (r : Bool × Nat × Nat)
    (h : newFromStringRep s = some r) :
    newFromString s = some (repValue r) := by
  simp [newFromString, h]

theorem ToWei_str_of_rep (s : String) (r : Bool × Nat × Nat) (d : Nat)
    (h : newFromStringRep s = some r) :
    ToWei (.str s) d = truncTowardZero ((repValue r).val * 10 ^ d) := by
  simp only [ToWei, newFromString, h, Option.map_some, Option.getD_some]
  rfl

theorem ToWei_str_of_none (s : String) (d : Nat)
    (h : newFromStringRep s = none) :
    ToWei (.str s) d = 0 := by
  simp only [ToWei, newFromString, h, Option.map_none, Option.getD_none]
  norm_num [Decimal.mulD, truncTowardZero]

theorem toDecimal_one_seventeen : ToDecimal (IValue.bigInt 1) 17 = ⟨0⟩ := by
  simp only [ToDecimal, Decimal.divD, Decimal.divRound, powOfTen, DivisionPrecision]
  have key : ((1 : ℤ) : ℚ) / (10 : ℚ) ^ (17 : ℕ) * (10 : ℚ) ^ (16 : ℕ) = 1 / 10 := by
    rw [show (17 : ℕ) = 16 + 1 from rfl, pow_succ]
    have h16 : (10 : ℚ) ^ (16 : ℕ) ≠ 0 := by positivity
    field_simp
  rw [key]
  have hr : roundHalfAway ((1 : ℚ) / 10) = 0 := by
    unfold roundHalfAway
    rw [if_pos (by norm_num)]
    norm_num
  rw [hr]
  norm_num

/-! Theorems settling the claims. -/

/-- C1 (counterexample): the claimed round trip
`toWei(toDecimal(a, d), d) = a` for all `0 ≤ d ≤ 30` fails at `a = 1`,
`d = 17`: shopspring `Div` keeps only `DivisionPrecision = 16` fractional
digits, so `ToDecimal(1, 17)` is already the zero decimal and the round
trip returns `0`, not `1`. -/
theorem C1_roundtrip_cex :
    ToWei (IAmount.dec (ToDecimal (IValue.bigInt 1) 17)) 17 ≠ 1 := by
  rw [toDecimal_one_seventeen, ToWei_dec_val]
  norm_num [truncTowardZero]

/-- C1 (amended): the conversions are exact inverses whenever the decimals
exponent is at most `DivisionPrecision = 16`: for every nonnegative integer
`a`, `toWei(toDecimal(a, d), d) = a`, and for every value with at most `d`
fractional digits (every `m / 10 ^ d` with `m` an integer),
`toDecimal(toWei(x, d), d) = x`. -/
theorem C1_roundtrip_amended :
    (∀ (a : ℕ) (d : Nat), d ≤ DivisionPrecision →
        ToWei (IAmount.dec (ToDecimal (IValue.bigInt (a : ℤ)) d)) d = (a : ℤ)) ∧
    (∀ (m : ℤ) (d : Nat), d ≤ DivisionPrecision →
        ToDecimal (IValue.bigInt (ToWei (IAmount.dec ⟨(m : ℚ) / 10 ^ d⟩) d)) d
          = ⟨(m : ℚ) / 10 ^ d⟩) := by
  have hwei : ∀ (m : ℤ) (d : Nat), ToWei (IAmount.dec ⟨(m : ℚ) / 10 ^ d⟩) d = m := by
    intro m d
    rw [ToWei_dec_val, div_mul_cancel₀ _ (by positivity : (10 : ℚ) ^ d ≠ 0)]
    exact truncTowardZero_intCast m
  constructor
  · intro a d hd
    rw [ToDecimal_bigInt_exact _ _ hd]
    exact hwei (a : ℤ) d
  · intro m d hd
    rw [hwei m d, ToDecimal_bigInt_exact _ _ hd]

/-- C1 (witness): the amended round trip at `a = 7`, `d = 3`. -/
theorem C1_roundtrip_witness :
    3 ≤ DivisionPrecision ∧
      ToWei (IAmount.dec (ToDecimal (IValue.bigInt ((7 : ℕ) : ℤ)) 3)) 3 = ((7 : ℕ) : ℤ) :=
  ⟨by decide, C1_roundtrip_amended.1 7 3 (by decide)⟩

/-- C2 (counterexample): `ToDecimal` does lose precision: at input `1` with
decimals exponent `17` the exact fixed-point value `1 / 10 ^ 17` is rounded
to `16` fractional digits, giving the zero decimal instead. -/
theorem C2_exact_division_cex :
    ToDecimal (IValue.bigInt 1) 17 ≠ ⟨(1 : ℚ) / 10 ^ 17⟩ := by
  rw [toDecimal_one_seventeen]
  simp only [ne_eq, Decimal.mk.injEq]
  norm_num

/-- C2 (amended): for every integer input (in particular every integer up
to `2 ^ 256 - 1`) and every decimals exponent `d ≤ DivisionPrecision = 16`,
`ToDecimal` returns the exact fixed-point value `rawInteger / 10 ^ d`; for
larger `d` the quotient is rounded half away from zero to `16` fractional
digits. -/
theorem C2_exact_division_amended (a : ℤ) (d : Nat) (hd : d ≤ DivisionPrecision) :
    ToDecimal (IValue.bigInt a) d = ⟨(a : ℚ) / 10 ^ d⟩ :=
  ToDecimal_bigInt_exact a d hd

/-- C2 (witness): the amended exactness at `a = 3`, `d = 2`. -/
theorem C2_exact_division_witness :
    2 ≤ DivisionPrecision ∧ ToDecimal (IValue.bigInt 3) 2 = ⟨(3 : ℚ) / 10 ^ 2⟩ :=
  ⟨by decide, C2_exact_division_amended 3 2 (by decide)⟩

/-- C3: `ToWei` truncates and never rounds up: `ToWei("1.23456789", 2)` is
the integer `123`, and in general, for every decimal string the library
parses to a nonnegative value `q`, the result is the integer part of
`q * 10 ^ d` (it is at most `q * 10 ^ d`, and within `1` of it). -/
theorem C3_truncation :
    ToWei (IAmount.str ("1.23456789")) 2 = 123 ∧
    ∀ (s : String) (q : ℚ) (d : Nat), newFromString s = some ⟨q⟩ → 0 ≤ q →
      (ToWei (IAmount.str s) d : ℚ) ≤ q * 10 ^ d ∧
        q * 10 ^ d < (ToWei (IAmount.str s) d : ℚ) + 1 := by
  constructor
  · rw [ToWei_str_of_rep _ (false, 123456789, 8) _ (by decide)]
    norm_num [repValue, truncTowardZero]
  · intro s q d hparse hq
    obtain ⟨r, hr, hv⟩ : ∃ r, newFromStringRep s = some r ∧ repValue r = ⟨q⟩ := by
      cases h : newFromStringRep s with
      | none => rw [newFromString, h] at hparse; exact absurd hparse (by simp)
      | some r =>
        refine ⟨r, rfl, ?_⟩
        rw [newFromString, h] at hparse
        simpa using hparse
    rw [ToWei_str_of_rep _ _ _ hr, hv]
    have h0 : (0 : ℚ) ≤ q * 10 ^ d := by positivity
    simp only [truncTowardZero, if_pos h0]
    exact ⟨Int.floor_le _, Int.lt_floor_add_one _⟩

/-- C3 (witness): the general truncation bounds at the string `2.5` with
decimals exponent `0`. -/
theorem C3_truncation_witness :
    newFromString ("2.5") = some ⟨(5 : ℚ) / 2⟩ ∧ (0 : ℚ) ≤ (5 : ℚ) / 2 ∧
      ((ToWei (IAmount.str ("2.5")) 0 : ℚ) ≤ (5 : ℚ) / 2 * 10 ^ (0 : ℕ) ∧
        (5 : ℚ) / 2 * 10 ^ (0 : ℕ) < (ToWei (IAmount.str ("2.5")) 0 : ℚ) + 1) := by
  have hp : newFromString ("2.5") = some ⟨(5 : ℚ) / 2⟩ := by
    rw [newFromString_of_rep _ (false, 25, 1) (by decide)]
    simp only [Option.some.injEq, repValue, Decimal.mk.injEq]
    norm_num
  exact ⟨hp, by norm_num, C3_truncation.2 ("2.5") ((5 : ℚ) / 2) 0 hp (by norm_num)⟩

/-- C4 (counterexample): on the invalid base-10 input `abc` neither
function fails: `ToDecimal` returns the zero decimal and `ToWei` returns
the integer `0` — both signatures have no error result at all. -/
theorem C4_invalid_input_cex :
    ToDecimal (IValue.str ("abc")) 2 = ⟨0⟩ ∧ ToWei (IAmount.str ("abc")) 2 = 0 := by
  constructor
  · have h : bigIntSetStringValue ("abc") = 0 := by decide
    simp only [ToDecimal, h, Int.cast_zero]
    exact divD_zero_num (powOfTen 2)
  · exact ToWei_str_of_none _ _ (by decide)

/-- C4 (amended): invalid numeric strings are not reported as errors: the
parse failures are discarded.  `ToWei` treats any unparseable string as the
zero amount; `ToDecimal` keeps whatever integer the failed `SetString` scan
left in the receiver — the longest leading sign-and-digits run, `0` when
there is none — so `ToDecimal("12ab", 0) = 12`. -/
theorem C4_invalid_input_amended :
    (∀ (s : String) (d : Nat), newFromString s = none → ToWei (IAmount.str s) d = 0) ∧
    (∀ (s : String) (d : Nat),
        ToDecimal (IValue.str s) d = ToDecimal (IValue.bigInt (bigIntSetStringValue s)) d) ∧
    ToDecimal (IValue.str ("12ab")) 0 = ⟨12⟩ := by
  refine ⟨?_, ?_, ?_⟩
  · intro s d h
    apply ToWei_str_of_none
    cases hr : newFromStringRep s with
    | none => rfl
    | some r => rw [newFromString, hr] at h; exact absurd h (by simp)
  · intro s d
    rfl
  · rw [show ToDecimal (IValue.str ("12ab")) 0
        = ToDecimal (IValue.bigInt (bigIntSetStringValue ("12ab"))) 0 from rfl,
      show bigIntSetStringValue ("12ab") = 12 from by decide,
      ToDecimal_bigInt_exact 12 0 (by decide)]
    simp only [Decimal.mk.injEq]
    norm_num

/-- C4 (witness): the amended behavior at the unparseable string `hello`. -/
theorem C4_invalid_input_witness :
    newFromString ("hello") = none ∧ ToWei (IAmount.str ("hello")) 3 = 0 := by
  have h : newFromString ("hello") = none := by
    rw [newFromString, show newFromStringRep ("hello") = none from by decide]
    rfl
  exact ⟨h, C4_invalid_input_amended.1 ("hello") 3 h⟩

/-- C5: per header notification the waiter queries the receipt once, treats
a failed or absent receipt (`checkTransactionReceipt = -1`) as pending and
keeps waiting, unsubscribes and returns `0` (Failed) on status `0`,
unsubscribes and returns `1` (Succeeded) on status `1`; on the trace with
the receipt absent for two headers and status `1` on the third it returns
`1` after exactly three receipt polls with exactly one unsubscribe call. -/
theorem C5_waiter_protocol :
    (∀ (receipt : Option Nat) (rest : List WaitEvent) (p u : Nat),
        checkTransactionReceipt receipt = -1 →
          waitLoop (WaitEvent.header receipt :: rest) p u = waitLoop rest (p + 1) u) ∧
    (∀ (rest : List WaitEvent) (p u : Nat),
        waitLoop (WaitEvent.header (some 0) :: rest) p u = ⟨some 0, p + 1, u + 1⟩) ∧
    (∀ (rest : List WaitEvent) (p u : Nat),
        waitLoop (WaitEvent.header (some 1) :: rest) p u = ⟨some 1, p + 1, u + 1⟩) ∧
    WaitForBlockCompletion
        [WaitEvent.header none, WaitEvent.header none, WaitEvent.header (some 1)]
      = ⟨some 1, 3, 1⟩ := by
  refine ⟨?_, ?_, ?_, ?_⟩
  · intro receipt rest p u h
    simp [waitLoop, h]
  · intro rest p u
    simp [waitLoop, checkTransactionReceipt]
  · intro rest p u
    simp [waitLoop, checkTransactionReceipt]
  · decide

/-- C5 (witness): the pending step of the per-poll protocol at a concrete
absent receipt. -/
theorem C5_waiter_protocol_witness :
    checkTransactionReceipt none = -1 ∧
      waitLoop [WaitEvent.header none] 0 0 = waitLoop [] 1 0 :=
  ⟨by decide, C5_waiter_protocol.1 none [] 0 0 (by decide)⟩

theorem waitLoop_pending_append :
    ∀ pre : List WaitEvent,
      (∀ e ∈ pre, ∃ r, e = WaitEvent.header r ∧
          checkTransactionReceipt r ≠ 0 ∧ checkTransactionReceipt r ≠ 1) →
      ∀ (es : List WaitEvent) (p u : Nat),
        waitLoop (pre ++ es) p u = waitLoop es (p + pre.length) u := by
  intro pre
  induction pre with
  | nil =>
    intro _ es p u
    simp
  | cons e pre ih =>
    intro hpre es p u
    obtain ⟨r, rfl, h0, h1⟩ := hpre e (List.mem_cons_self e pre)
    have step : waitLoop (WaitEvent.header r :: (pre ++ es)) p u
        = waitLoop (pre ++ es) (p + 1) u := by
      simp [waitLoop, h0, h1]
    rw [List.cons_append, step, ih (fun x hx => hpre x (List.mem_cons_of_mem _ hx)) es (p + 1) u]
    congr 1
    simp
    omega

theorem waitLoop_result_zero_source :
    ∀ (es : List WaitEvent) (p u : Nat), (waitLoop es p u).result = some 0 →
      ∃ pre r rest, es = pre ++ WaitEvent.header r :: rest ∧
        checkTransactionReceipt r = 0 := by
  intro es
  induction es with
  | nil =>
    intro p u h
    simp [waitLoop] at h
  | cons e rest ih =>
    intro p u h
    cases e with
    | subErr =>
      rw [show waitLoop (WaitEvent.subErr :: rest) p u = ⟨some (-1), p, u⟩ from rfl] at h
      simp at h
    | header r =>
      by_cases h0 : checkTransactionReceipt r = 0
      · exact ⟨[], r, rest, by simp, h0⟩
      · by_cases h1 : checkTransactionReceipt r = 1
        · rw [show waitLoop (WaitEvent.header r :: rest) p u = ⟨some 1, p + 1, u + 1⟩
              from by simp [waitLoop, h0, h1]] at h
          simp at h
        · rw [show waitLoop (WaitEvent.header r :: rest) p u = waitLoop rest (p + 1) u
              from by simp [waitLoop, h0, h1]] at h
          obtain ⟨pre, r', rest', heq, hr⟩ := ih (p + 1) u h
          exact ⟨WaitEvent.header r :: pre, r', rest', by simp [heq], hr⟩

/-- C6: if the subscription error channel fires before any receipt
resolves (every earlier event is a header whose receipt is still pending),
the waiter returns `-1` (SubscriptionError); and the Failed outcome `0`
arises only from a polled receipt with status `0`, never from the error
channel, so the two outcomes are never conflated. -/
theorem C6_subscription_error :
    (∀ pre rest : List WaitEvent,
        (∀ e ∈ pre, ∃ r, e = WaitEvent.header r ∧
            checkTransactionReceipt r ≠ 0 ∧ checkTransactionReceipt r ≠ 1) →
          (WaitForBlockCompletion (pre ++ WaitEvent.subErr :: rest)).result = some (-1)) ∧
    (∀ events : List WaitEvent,
        (WaitForBlockCompletion events).result = some 0 →
          ∃ pre r rest, events = pre ++ WaitEvent.header r :: rest ∧
            checkTransactionReceipt r = 0) := by
  constructor
  · intro pre rest hpre
    unfold WaitForBlockCompletion
    rw [waitLoop_pending_append pre hpre (WaitEvent.subErr :: rest) 0 0]
    rfl
  · intro events h
    exact waitLoop_result_zero_source events 0 0 h

/-- C6 (witness): a pending header followed by a subscription error yields
`-1`. -/
theorem C6_subscription_error_witness :
    (WaitForBlockCompletion [WaitEvent.header none, WaitEvent.subErr]).result = some (-1) :=
  C6_subscription_error.1 [WaitEvent.header none] [] (by
    intro e he
    rw [List.mem_singleton] at he
    subst he
    exact ⟨none, rfl, by decide, by decide⟩)

/-- C7: a failed `balanceOf` read does not abort the orchestrator: the
error is discarded, the nil `*big.Int` it returns alongside the error flows
into `ToDecimal`, and the displayed decimal value is `0`, for every
decimals exponent. -/
theorem C7_balance_read_error_zero (d : Nat) :
    displayedBalance (Except.error ()) d = ⟨0⟩ := by
  simp only [displayedBalance, ToDecimal]
  exact divD_zero_num (powOfTen d)

/-- C7 (witness): the displayed balance of a failed read with the token's
actual 18 decimals. -/
theorem C7_balance_read_error_zero_witness :
    displayedBalance (Except.error ()) 18 = ⟨0⟩ :=
  C7_balance_read_error_zero 18

/-- C8: the scaling identities — `toWei("1", 18)` is the integer
`10 ^ 18 = 1000000000000000000`, and `toDecimal(1000000000000000000, 18)`
is the decimal value `1`. -/
theorem C8_scaling :
    ToWei (IAmount.str ("1")) 18 = 1000000000000000000 ∧
    ToDecimal (IValue.bigInt 1000000000000000000) 18 = ⟨1⟩ := by
  constructor
  · rw [ToWei_str_of_rep _ (false, 1, 0) _ (by decide)]
    norm_num [repValue, truncTowardZero]
  · have key : ((1000000000000000000 : ℤ) : ℚ) / (powOfTen 18).val
        * 10 ^ DivisionPrecision = ((10 ^ 16 : ℤ) : ℚ) := by
      simp only [powOfTen, DivisionPrecision]
      norm_num
    simp only [ToDecimal, Decimal.divD]
    rw [divRound_eq_intCast _ _ _ _ key]
    simp only [Decimal.mk.injEq, DivisionPrecision]
    norm_num

/-- C9: for every successfully parsed private key, the constructed
transaction authorization has nonce left unset (nil), zero native-currency
value, gas limit `300000`, the supplied suggested gas price, and a signer
bound to the supplied chain id. -/
theorem C9_account_auth (env : CryptoEnv) (s : String) (chainID gasPrice : ℤ)
    (acc : Account) (h : getAccount env s chainID gasPrice = some acc) :
    acc.Auth.Nonce = none ∧ acc.Auth.Value = 0 ∧ acc.Auth.GasLimit = 300000 ∧
      acc.Auth.GasPrice = gasPrice ∧ acc.Auth.signerChainID = chainID := by
  unfold getAccount at h
  cases henv : env.hexToECDSA s with
  | none =>
    rw [henv] at h
    exact absurd h (by simp)
  | some k =>
    rw [henv] at h
    simp only [Option.some.injEq] at h
    subst h
    simp [newKeyedTransactorWithChainID]

/-- C9 (witness): the authorization fields of the account built from a
concrete environment, chain id `97` and gas price `5`. -/
theorem C9_account_auth_witness :
    getAccount trivialCryptoEnv ("ab") 97 5 = some sampleAccount ∧
      sampleAccount.Auth.Nonce = none ∧ sampleAccount.Auth.Value = 0 ∧
      sampleAccount.Auth.GasLimit = 300000 ∧ sampleAccount.Auth.GasPrice = 5 ∧
      sampleAccount.Auth.signerChainID = 97 :=
  ⟨rfl, C9_account_auth trivialCryptoEnv ("ab") 97 5 sampleAccount rfl⟩

/-- C10: an input whose dynamic type is neither `string` nor `*big.Int`
(for example an `int64` or a `float64`) falls through the type switch, so
`ToDecimal` returns the decimal `0` — it neither converts the value nor
reports an error. -/
theorem C10_unhandled_type_zero (n : ℤ) (x : ℚ) (d : Nat) :
    ToDecimal (IValue.int64 n) d = ⟨0⟩ ∧ ToDecimal (IValue.float64 x) d = ⟨0⟩ := by
  constructor <;> exact divD_zero_num (powOfTen d)

/-- C10 (witness): concrete unhandled inputs at decimals exponent `7`. -/
theorem C10_unhandled_type_zero_witness :
    ToDecimal (IValue.int64 5) 7 = ⟨0⟩ ∧ ToDecimal (IValue.float64 ((3 : ℚ) / 2)) 7 = ⟨0⟩ :=
  C10_unhandled_type_zero 5 ((3 : ℚ) / 2) 7

end GbSc
